import Mathlib

/-!
Verification of the boop-relay server: a shallow embedding of the protocol
codec (message.rs), the credential check (clients.rs) and the presence table
plus per-connection session engine (main.rs), with theorems settling the
specification claims about them.
-/

namespace BoopRelay

/-- Rust strings are modelled as lists of Unicode scalar values. -/
abbrev Str := List Char

/-- Embed a Lean string literal as a character list. -/
def str (s : String) : Str := s.data

/-- The characters removed by Rust's `str::trim` (the Unicode White_Space set,
as implemented by `char::is_whitespace`). -/
def rust_is_whitespace (c : Char) : Bool :=
  c = ' ' || c = '\t' || c = '\n' || c.val = 11 || c.val = 12 || c = '\r' ||
  c.val = 0x85 || c.val = 0xA0 || c.val = 0x1680 ||
  (0x2000 ≤ c.val && c.val ≤ 0x200A) || c.val = 0x2028 || c.val = 0x2029 ||
  c.val = 0x202F || c.val = 0x205F || c.val = 0x3000

/-- Rust `char::to_ascii_uppercase`: map a lowercase ASCII letter to uppercase,
leave every other character unchanged. -/
def to_ascii_upper_char (c : Char) : Char :=
  if 'a' ≤ c ∧ c ≤ 'z' then Char.ofNat (c.toNat - 32) else c

/-- Rust `str::to_ascii_uppercase` on a whole string. -/
def to_ascii_uppercase (s : Str) : Str := s.map to_ascii_upper_char

/-- Rust `str::trim_start`: drop leading whitespace. -/
def trim_start (s : Str) : Str := s.dropWhile rust_is_whitespace

/-- Rust `str::trim_end`: drop trailing whitespace. -/
def trim_end (s : Str) : Str := ((s.reverse).dropWhile rust_is_whitespace).reverse

/-- Rust `str::trim`: drop leading and trailing whitespace. -/
def rust_trim (s : Str) : Str := trim_end (trim_start s)

/-- Helper for Rust `str::split(" ")`: returns the first token and the list of
remaining tokens, splitting at every single space character. -/
def splitAux : Str → Str × List Str
  | [] => ([], [])
  | c :: rest =>
      let r := splitAux rest
      if c = ' ' then ([], r.1 :: r.2) else (c :: r.1, r.2)

/-- Rust `str::split(" ").collect::<Vec<_>>()`: the list of tokens obtained by
splitting at every single space (empty tokens included, as in Rust). -/
def splitOnSpace (s : Str) : List Str := (splitAux s).1 :: (splitAux s).2

/-- message.rs: `enum MessageErrorKind`. -/
inductive MessageErrorKind where
  | NotAvailable
  | MalformedCommand
  | MalformedArguments
  | ProtocolMismatch
  deriving DecidableEq

/-- message.rs: `enum MessageType`. -/
inductive MessageType where
  | CONNECT (key password : Str)
  | DISCONNECT
  | PING
  | BOOP (partner_key : Str)
  | AYT (partner_key : Str)
  | HEY
  | NO
  | BYE
  | PONG
  | ERROR (kind : MessageErrorKind)
  | ONLINE (partner_key : Str)
  | AFK (partner_key : Str)
  deriving DecidableEq

/-- message.rs: `enum ParserError`. -/
inductive ParserError where
  | UnknownMessageType
  | UnknownArguments
  deriving DecidableEq

/-- message.rs: the `Into<MessageErrorKind> for ParserError` impl. -/
def ParserError.into : ParserError → MessageErrorKind
  | .UnknownMessageType => .MalformedCommand
  | .UnknownArguments => .MalformedArguments

/-- message.rs: `fn connect` (argument handler for CONNECT). -/
def connect : List Str → Except ParserError MessageType
  | [k, p] => .ok (.CONNECT k p)
  | _ => .error .UnknownArguments

/-- message.rs: `fn boop`. -/
def boop : List Str → Except ParserError MessageType
  | [a] => .ok (.BOOP a)
  | _ => .error .UnknownArguments

/-- message.rs: `fn ayt`. -/
def ayt : List Str → Except ParserError MessageType
  | [a] => .ok (.AYT a)
  | _ => .error .UnknownArguments

/-- message.rs: `fn online`. -/
def online : List Str → Except ParserError MessageType
  | [a] => .ok (.ONLINE a)
  | _ => .error .UnknownArguments

/-- message.rs: `fn afk`. -/
def afk : List Str → Except ParserError MessageType
  | [a] => .ok (.AFK a)
  | _ => .error .UnknownArguments

/-- message.rs: `fn error` (argument handler for ERROR). -/
def error : List Str → Except ParserError MessageType
  | [a] =>
      if a = str "NOT_AVAILABLE" then .ok (.ERROR .NotAvailable)
      else if a = str "MALFORMED_COMMAND" then .ok (.ERROR .MalformedCommand)
      else if a = str "MALFORMED_ARGUMENTS" then .ok (.ERROR .MalformedArguments)
      else if a = str "PROTOCOL_MISMATCH" then .ok (.ERROR .ProtocolMismatch)
      else .error .UnknownArguments
  | _ => .error .UnknownArguments

/-- Body of message.rs `fn get_message_type_from_text` as a function of the
already uppercased command token `u`, translating its two `match` blocks
(zero arguments vs. at least one argument) into chains of equality tests. -/
def get_message_type_from_upper (u : Str) (args : List Str) :
    Except ParserError MessageType :=
  if args.length = 0 then
    if u = str "DISCONNECT" then .ok .DISCONNECT
    else if u = str "PING" then .ok .PING
    else if u = str "HEY" then .ok .HEY
    else if u = str "NO" then .ok .NO
    else if u = str "PONG" then .ok .PONG
    else if u = str "BYE" then .ok .BYE
    else if u = str "CONNECT" then .error .UnknownArguments
    else if u = str "BOOP" then .error .UnknownArguments
    else if u = str "AYT" then .error .UnknownArguments
    else if u = str "ERROR" then .error .UnknownArguments
    else if u = str "ONLINE" then .error .UnknownArguments
    else if u = str "AFK" then .error .UnknownArguments
    else .error .UnknownMessageType
  else
    if u = str "CONNECT" then connect args
    else if u = str "BOOP" then boop args
    else if u = str "AYT" then ayt args
    else if u = str "ERROR" then error args
    else if u = str "ONLINE" then online args
    else if u = str "AFK" then afk args
    else if u = str "DISCONNECT" then .error .UnknownArguments
    else if u = str "PING" then .error .UnknownArguments
    else if u = str "HEY" then .error .UnknownArguments
    else if u = str "NO" then .error .UnknownArguments
    else if u = str "PONG" then .error .UnknownArguments
    else if u = str "BYE" then .error .UnknownArguments
    else .error .UnknownMessageType

/-- message.rs: `fn get_message_type_from_text` — the command token is
uppercased by `cmd.to_ascii_uppercase()` before being matched. -/
def get_message_type_from_text (cmd : Str) (args : List Str) :
    Except ParserError MessageType :=
  get_message_type_from_upper (to_ascii_uppercase cmd) args

instance {ε α : Type} [DecidableEq ε] [DecidableEq α] : DecidableEq (Except ε α) :=
  fun x y =>
    match x, y with
    | .ok a, .ok b =>
        if h : a = b then .isTrue (by rw [h])
        else .isFalse (fun hc => h (Except.ok.inj hc))
    | .error a, .error b =>
        if h : a = b then .isTrue (by rw [h])
        else .isFalse (fun hc => h (Except.error.inj hc))
    | .ok _, .error _ => .isFalse (fun hc => Except.noConfusion hc)
    | .error _, .ok _ => .isFalse (fun hc => Except.noConfusion hc)

/-- message.rs, first step of `parse_message`: remove one trailing newline
character if present (`if cmd.ends_with("\n") { cmd.remove(cmd.len() - 1) }`). -/
def drop_newline (s : Str) : Str :=
  if s.getLast? = some '\n' then s.dropLast else s

/-- message.rs: `fn parse_message`. Removes at most one trailing newline,
trims surrounding whitespace, splits on single spaces and dispatches on the
first token. -/
def parse_message (msg : Str) : Except ParserError MessageType :=
  let sp := splitAux (rust_trim (drop_newline msg))
  get_message_type_from_text sp.1 sp.2

/-- message.rs: `fn error_text`. -/
def error_text : MessageErrorKind → Str
  | .NotAvailable => str "NOT_AVAILABLE"
  | .MalformedCommand => str "MALFORMED_COMMAND"
  | .MalformedArguments => str "MALFORMED_ARGUMENTS"
  | .ProtocolMismatch => str "PROTOCOL_MISMATCH"

/-- message.rs: `fn create_message_text`. -/
def create_message_text : MessageType → Str
  | .CONNECT key password => str "CONNECT " ++ key ++ str " " ++ password ++ str "\n"
  | .DISCONNECT => str "DISCONNECT\n"
  | .PING => str "PING\n"
  | .BOOP partner_key => str "BOOP " ++ partner_key ++ str "\n"
  | .AYT partner_key => str "AYT " ++ partner_key ++ str "\n"
  | .HEY => str "HEY\n"
  | .NO => str "NO\n"
  | .BYE => str "BYE\n"
  | .PONG => str "PONG\n"
  | .ERROR err_kind => str "ERROR " ++ error_text err_kind ++ str "\n"
  | .ONLINE partner_key => str "ONLINE " ++ partner_key ++ str "\n"
  | .AFK partner_key => str "AFK " ++ partner_key ++ str "\n"

/-- clients.rs: `struct Client`. -/
structure Client where
  key : Str
  hash : Str
  deriving DecidableEq

/-- clients.rs: `fn client_login_is_valid`. The external argon2 crate calls
`PasswordHash::new` and `Argon2::verify_password` are out of this repository
and are passed in as parameters: `parse_hash` returns `none` exactly when the
stored hash string cannot be parsed, and `verify_password password h` is the
boolean outcome of verifying `password` against the parsed hash `h`. -/
def client_login_is_valid {H : Type} (parse_hash : Str → Option H)
    (verify_password : Str → H → Bool)
    (key password : Str) (clients : List Client) : Except Unit Bool :=
  match clients.find? (fun c => c.key == key) with
  | some c =>
      match parse_hash c.hash with
      | some parsed_hash => .ok (verify_password password parsed_hash)
      | none => .error ()
  | none => .ok false

/-- Delivery channels (`Tx`, the send half of a tokio unbounded channel) are
modelled by an identifier; a send is recorded as a pair of the channel
identifier and the message handed to it. -/
abbrev Tx := Nat

/-- The inner map of main.rs `SharedState.connections`: connection id to
channel, modelled as an association list with distinct keys. -/
abbrev Inner := List (Str × Tx)

/-- main.rs `SharedState.connections`: identity key to inner session map. -/
abbrev Table := List (Str × Inner)

/-- HashMap `get`: the value bound to key `k`, if any. -/
def alGet {β : Type} (k : Str) : List (Str × β) → Option β
  | [] => none
  | (k2, v) :: t => if k2 = k then some v else alGet k t

/-- HashMap `insert`: replace the binding of `k` if present, else append it. -/
def alInsert {β : Type} (k : Str) (v : β) : List (Str × β) → List (Str × β)
  | [] => [(k, v)]
  | (k2, v2) :: t => if k2 = k then (k, v) :: t else (k2, v2) :: alInsert k v t

/-- HashMap `remove`: drop the binding of `k` if present. -/
def alRemove {β : Type} (k : Str) : List (Str × β) → List (Str × β)
  | [] => []
  | (k2, v2) :: t => if k2 = k then t else (k2, v2) :: alRemove k t

/-- main.rs: `fn add_connection` — `entry(key).or_insert(HashMap::new())
.insert(connection_id, channel)`. -/
def add_connection (client_key connection_id : Str) (channel : Tx)
    (table : Table) : Table :=
  let inner := (alGet client_key table).getD []
  alInsert client_key (alInsert connection_id channel inner) table

/-- main.rs: `fn remove_connection` — `entry(key).and_modify(|m| m.remove(id))`
followed by `retain(|_, m| m.len() > 0)`. -/
def remove_connection (client_key connection_id : Str) (table : Table) : Table :=
  let t1 :=
    match alGet client_key table with
    | some inner => alInsert client_key (alRemove connection_id inner) table
    | none => table
  t1.filter (fun p => decide (0 < p.2.length))

/-- The presence-table invariant: no identity is bound to an empty inner
session map. -/
def no_empty_inner (table : Table) : Prop := ∀ p ∈ table, p.2 ≠ []

instance (table : Table) : Decidable (no_empty_inner table) := by
  unfold no_empty_inner
  infer_instance

/-- The two mutations the repository performs on the shared table. -/
inductive TableOp where
  | add (key id : Str) (ch : Tx)
  | remove (key id : Str)

/-- Apply one table operation. -/
def apply_table_op (op : TableOp) (t : Table) : Table :=
  match op with
  | .add k i c => add_connection k i c t
  | .remove k i => remove_connection k i t

/-- Run a sequence of table operations from the empty table of
`SharedState::new()`. -/
def run_table_ops (ops : List TableOp) : Table :=
  ops.foldl (fun t op => apply_table_op op t) []

/-- The event sources multiplexed by the authenticated loop of
`handle_connection` (main.rs lines 234 to 308): a watchdog tick, a line read
from the client (with EOF and read error as separate outcomes), and a
delivery received on the session's own channel. -/
inductive Event where
  | tick
  | line (s : Str)
  | eofRead
  | readErr
  | deliver (m : MessageType)

/-- The observable outcome of one iteration of the authenticated loop:
the liveness flag, the shared table, the lines written to this client, the
messages handed to peer channels, and whether the session terminated. -/
structure StepOut where
  was_pinged : Bool
  table : Table
  written : List MessageType
  sends : List (Tx × MessageType)
  terminated : Bool
  deriving DecidableEq

/-- main.rs: one iteration of the authenticated `loop` in `handle_connection`
(the `tokio::select!` body, lines 236 to 307), for the session of identity
`client_key` with session id `connection_id`. Writes to the client are
modelled as succeeding; channel sends are fire-and-forget with their results
discarded, exactly as `let _ = channel.send(..)` discards them. -/
def auth_step (client_key connection_id : Str) (ev : Event)
    (was_pinged : Bool) (table : Table) : StepOut :=
  match ev with
  | .tick =>
      if !was_pinged then
        { was_pinged := was_pinged,
          table := remove_connection client_key connection_id table,
          written := [], sends := [], terminated := true }
      else
        { was_pinged := false, table := table,
          written := [], sends := [], terminated := false }
  | .eofRead =>
      { was_pinged := was_pinged,
        table := remove_connection client_key connection_id table,
        written := [], sends := [], terminated := true }
  | .readErr =>
      { was_pinged := was_pinged,
        table := remove_connection client_key connection_id table,
        written := [], sends := [], terminated := true }
  | .line s =>
      match parse_message s with
      | .ok .DISCONNECT =>
          { was_pinged := was_pinged,
            table := remove_connection client_key connection_id table,
            written := [.BYE], sends := [], terminated := true }
      | .ok .PING =>
          { was_pinged := true, table := table,
            written := [.PONG], sends := [], terminated := false }
      | .ok (.BOOP partner_key) =>
          { was_pinged := was_pinged, table := table,
            written := [],
            sends :=
              match alGet partner_key table with
              | some inner_map =>
                  inner_map.map (fun q => (q.2, MessageType.BOOP client_key))
              | none => [],
            terminated := false }
      | .ok (.AYT partner_key) =>
          { was_pinged := was_pinged, table := table,
            written :=
              [if (alGet partner_key table).isSome then
                 MessageType.ONLINE partner_key
               else
                 MessageType.AFK partner_key],
            sends := [], terminated := false }
      | .ok _ =>
          { was_pinged := was_pinged, table := table,
            written := [.ERROR .ProtocolMismatch], sends := [],
            terminated := true }
      | .error e =>
          { was_pinged := was_pinged, table := table,
            written := [.ERROR e.into], sends := [], terminated := true }
  | .deliver m =>
      { was_pinged := was_pinged, table := table,
        written := [m], sends := [], terminated := false }

/-- Outcome of the handshake on the first line of a connection (main.rs lines
199 to 232): either the session is refused after writing one final line, or it
is accepted for identity `key` after writing `HEY`. -/
inductive HandshakeStep where
  | rejected (final_line : MessageType)
  | accepted (key : Str)
  deriving DecidableEq

/-- main.rs: the handshake branch of `handle_connection` — parse the first
line; on parse failure answer `ERROR` with the translated code; on a `CONNECT`
consult `client_login_is_valid` and answer `HEY` or `NO`; on any other message
answer `ERROR PROTOCOL_MISMATCH`. -/
def handshake_step {H : Type} (parse_hash : Str → Option H)
    (verify_password : Str → H → Bool) (clients : List Client)
    (first_line : Str) : HandshakeStep :=
  match parse_message first_line with
  | .error e => .rejected (.ERROR e.into)
  | .ok (.CONNECT key password) =>
      match client_login_is_valid parse_hash verify_password key password clients with
      | .ok true => .accepted key
      | _ => .rejected .NO
  | .ok _ => .rejected (.ERROR .ProtocolMismatch)

/-- main.rs: the whole pre-loop part of `handle_connection` after a line was
read: the handshake, followed (only on acceptance) by the allocation of the
session id and channel and the `add_connection` call. Returns the lines
written, the resulting table, and whether the authenticated loop is entered. -/
def connection_start {H : Type} (parse_hash : Str → Option H)
    (verify_password : Str → H → Bool) (clients : List Client)
    (first_line connection_id : Str) (channel : Tx) (table : Table) :
    List MessageType × Table × Bool :=
  match handshake_step parse_hash verify_password clients first_line with
  | .rejected m => ([m], table, false)
  | .accepted key => ([.HEY], add_connection key connection_id channel table, true)

/-- The line as `parse_message` sees it after its preprocessing: one trailing
newline removed, then all surrounding whitespace trimmed. -/
def line_trimmed (s : Str) : Str := rust_trim (drop_newline s)

/-- Argument arity of each command token in the closed set of the protocol
(message table of the spec), `none` for a token outside the set. -/
def arity (u : Str) : Option Nat :=
  if u = str "CONNECT" then some 2
  else if u = str "BOOP" then some 1
  else if u = str "AYT" then some 1
  else if u = str "ERROR" then some 1
  else if u = str "ONLINE" then some 1
  else if u = str "AFK" then some 1
  else if u = str "DISCONNECT" then some 0
  else if u = str "PING" then some 0
  else if u = str "HEY" then some 0
  else if u = str "NO" then some 0
  else if u = str "PONG" then some 0
  else if u = str "BYE" then some 0
  else none

/-- Well-formedness of a string argument under which the render/parse round
trip holds: non-empty and free of every whitespace character. -/
def args_wf (s : Str) : Bool :=
  !s.isEmpty && s.all (fun c => !rust_is_whitespace c)

/-- Well-formedness of a message: every string argument is `args_wf`. -/
def msg_wf : MessageType → Bool
  | .CONNECT k p => args_wf k && args_wf p
  | .BOOP a => args_wf a
  | .AYT a => args_wf a
  | .ONLINE a => args_wf a
  | .AFK a => args_wf a
  | _ => true

/-- Modelled from the words of claim C3: an argument is well-formed when it is
non-empty and contains no space and no newline (nothing about any other
whitespace character). -/
def args_wf_claim (s : Str) : Bool :=
  !s.isEmpty && s.all (fun c => !(c = ' ') && !(c = '\n'))

/-- Claim C3 well-formedness lifted to messages. -/
def msg_wf_claim : MessageType → Bool
  | .CONNECT k p => args_wf_claim k && args_wf_claim p
  | .BOOP a => args_wf_claim a
  | .AYT a => args_wf_claim a
  | .ONLINE a => args_wf_claim a
  | .AFK a => args_wf_claim a
  | _ => true

example : parse_message (str "CONNECT foo bar\n") =
    .ok (.CONNECT (str "foo") (str "bar")) := by decide

example : parse_message (str "coNnECt foo bar") =
    .ok (.CONNECT (str "foo") (str "bar")) := by decide

example : parse_message (str "BOOP foo bar\n") = .error .UnknownArguments := by decide

example : parse_message (str "BOOP  \n") = .error .UnknownArguments := by decide

example : parse_message (str "CONNECT   bar\n") = .error .UnknownArguments := by decide

example : parse_message (str "DOESNOTEXIST foo bar\n") =
    .error .UnknownMessageType := by decide

example : parse_message (str "CONNECT  bar\n") =
    .ok (.CONNECT [] (str "bar")) := by decide

/-! Lemmas about `dropWhile`, trimming and splitting. -/

theorem dropWhile_head_false {p : Char → Bool} :
    ∀ {l : Str} {c : Char} {t : Str}, l.dropWhile p = c :: t → p c = false := by
  intro l
  induction l with
  | nil =>
      intro c t h
      exact absurd h (by simp [List.dropWhile])
  | cons a l2 ih =>
      intro c t h
      rw [List.dropWhile_cons] at h
      by_cases hp : p a = true
      · rw [if_pos hp] at h
        exact ih h
      · rw [if_neg hp] at h
        cases h
        simpa using hp

theorem dropWhile_eq_self {p : Char → Bool} {l : Str}
    (h : ∀ c t, l = c :: t → p c = false) : l.dropWhile p = l := by
  cases l with
  | nil => simp [List.dropWhile]
  | cons a t =>
      rw [List.dropWhile_cons, if_neg]
      simp [h a t rfl]

theorem dropWhile_decomp (p : Char → Bool) :
    ∀ l : Str, ∃ a, l = a ++ l.dropWhile p := by
  intro l
  induction l with
  | nil => exact ⟨[], rfl⟩
  | cons x t ih =>
      by_cases hp : p x = true
      · obtain ⟨a, ha⟩ := ih
        refine ⟨x :: a, ?_⟩
        rw [List.dropWhile_cons, if_pos hp, List.cons_append, ← ha]
      · refine ⟨[], ?_⟩
        rw [List.dropWhile_cons, if_neg hp, List.nil_append]

theorem trim_end_eq_self {s : Str}
    (h : ∀ d, s.getLast? = some d → rust_is_whitespace d = false) :
    trim_end s = s := by
  unfold trim_end
  rw [dropWhile_eq_self, List.reverse_reverse]
  intro c t hct
  apply h
  rw [← List.head?_reverse s, hct]
  rfl

theorem getLast?_reverse_eq (l : Str) : l.reverse.getLast? = l.head? := by
  rw [← List.head?_reverse, List.reverse_reverse]

theorem getLast?_rust_trim {s : Str} {c : Char}
    (h : (rust_trim s).getLast? = some c) : rust_is_whitespace c = false := by
  unfold rust_trim trim_end at h
  rw [getLast?_reverse_eq] at h
  cases heq : ((trim_start s).reverse.dropWhile rust_is_whitespace) with
  | nil => rw [heq] at h; exact absurd h (by simp)
  | cons a t =>
      rw [heq] at h
      have : a = c := by simpa using h
      subst this
      exact dropWhile_head_false heq

theorem drop_newline_rust_trim (s : Str) :
    drop_newline (rust_trim s) = rust_trim s := by
  unfold drop_newline
  by_cases h : (rust_trim s).getLast? = some '\n'
  · exact absurd (getLast?_rust_trim h) (by decide)
  · rw [if_neg h]

theorem rust_trim_idem (s : Str) : rust_trim (rust_trim s) = rust_trim s := by
  have h1 : trim_start (rust_trim s) = rust_trim s := by
    apply dropWhile_eq_self
    intro c t h
    obtain ⟨a, ha⟩ := dropWhile_decomp rust_is_whitespace (trim_start s).reverse
    have hs : trim_start s = rust_trim s ++ a.reverse := by
      have h2 := congrArg List.reverse ha
      rw [List.reverse_reverse, List.reverse_append] at h2
      exact h2
    have h3 : trim_start s = c :: (t ++ a.reverse) := by
      rw [hs, h]
      simp
    exact dropWhile_head_false h3
  have h2 : trim_end (rust_trim s) = rust_trim s :=
    trim_end_eq_self (fun d hd => getLast?_rust_trim hd)
  show trim_end (trim_start (rust_trim s)) = rust_trim s
  rw [h1, h2]

theorem rust_trim_eq_self {s : Str}
    (h1 : ∀ c t, s = c :: t → rust_is_whitespace c = false)
    (h2 : ∀ d, s.getLast? = some d → rust_is_whitespace d = false) :
    rust_trim s = s := by
  show trim_end (trim_start s) = s
  rw [show trim_start s = s from dropWhile_eq_self h1, trim_end_eq_self h2]

theorem parse_message_line_trimmed (s : Str) :
    parse_message (line_trimmed s) = parse_message s := by
  unfold parse_message line_trimmed
  rw [drop_newline_rust_trim, rust_trim_idem]

theorem splitAux_no_space {a : Str} (h : ∀ c ∈ a, c ≠ ' ') :
    splitAux a = (a, []) := by
  induction a with
  | nil => rfl
  | cons c t ih =>
      have hc : c ≠ ' ' := h c (List.mem_cons_self c t)
      simp [splitAux, hc, ih (fun x hx => h x (List.mem_cons_of_mem c hx))]

theorem splitAux_append {a : Str} (b : Str) (h : ∀ c ∈ a, c ≠ ' ') :
    splitAux (a ++ ' ' :: b) = (a, (splitAux b).1 :: (splitAux b).2) := by
  induction a with
  | nil => simp [splitAux]
  | cons c t ih =>
      have hc : c ≠ ' ' := h c (List.mem_cons_self c t)
      simp [splitAux, hc, ih (fun x hx => h x (List.mem_cons_of_mem c hx))]

theorem getLast?_append_right (a : Str) {b : Str} (h : b ≠ []) :
    (a ++ b).getLast? = b.getLast? := by
  rw [← List.head?_reverse (a ++ b), ← List.head?_reverse b, List.reverse_append]
  cases hb : b.reverse with
  | nil => exact absurd (by simpa using hb) h
  | cons c t => simp [hb]

theorem drop_newline_concat (x : Str) : drop_newline (x ++ ['\n']) = x := by
  unfold drop_newline
  simp

theorem parse_message_eq_gmt (s : Str) :
    parse_message s =
      get_message_type_from_text (splitAux (line_trimmed s)).1
        (splitAux (line_trimmed s)).2 := rfl

/-! Claim C2: arity mismatches and empty argument tokens. -/

theorem gmt_upper_arity_mismatch {u : Str} {args : List Str} {n : Nat}
    (ha : arity u = some n) (hl : args.length ≠ n) :
    get_message_type_from_upper u args = .error .UnknownArguments := by
  unfold arity at ha
  by_cases h1 : u = str "CONNECT"
  · rw [if_pos h1] at ha
    subst h1
    obtain rfl : (2 : Nat) = n := Option.some.inj ha
    rcases args with _ | ⟨a, _ | ⟨b, _ | ⟨d, t⟩⟩⟩ <;> first | rfl | exact absurd rfl hl
  rw [if_neg h1] at ha
  by_cases h2 : u = str "BOOP"
  · rw [if_pos h2] at ha
    subst h2
    obtain rfl : (1 : Nat) = n := Option.some.inj ha
    rcases args with _ | ⟨a, _ | ⟨b, _ | ⟨d, t⟩⟩⟩ <;> first | rfl | exact absurd rfl hl
  rw [if_neg h2] at ha
  by_cases h3 : u = str "AYT"
  · rw [if_pos h3] at ha
    subst h3
    obtain rfl : (1 : Nat) = n := Option.some.inj ha
    rcases args with _ | ⟨a, _ | ⟨b, _ | ⟨d, t⟩⟩⟩ <;> first | rfl | exact absurd rfl hl
  rw [if_neg h3] at ha
  by_cases h4 : u = str "ERROR"
  · rw [if_pos h4] at ha
    subst h4
    obtain rfl : (1 : Nat) = n := Option.some.inj ha
    rcases args with _ | ⟨a, _ | ⟨b, _ | ⟨d, t⟩⟩⟩ <;> first | rfl | exact absurd rfl hl
  rw [if_neg h4] at ha
  by_cases h5 : u = str "ONLINE"
  · rw [if_pos h5] at ha
    subst h5
    obtain rfl : (1 : Nat) = n := Option.some.inj ha
    rcases args with _ | ⟨a, _ | ⟨b, _ | ⟨d, t⟩⟩⟩ <;> first | rfl | exact absurd rfl hl
  rw [if_neg h5] at ha
  by_cases h6 : u = str "AFK"
  · rw [if_pos h6] at ha
    subst h6
    obtain rfl : (1 : Nat) = n := Option.some.inj ha
    rcases args with _ | ⟨a, _ | ⟨b, _ | ⟨d, t⟩⟩⟩ <;> first | rfl | exact absurd rfl hl
  rw [if_neg h6] at ha
  by_cases h7 : u = str "DISCONNECT"
  · rw [if_pos h7] at ha
    subst h7
    obtain rfl : (0 : Nat) = n := Option.some.inj ha
    rcases args with _ | ⟨a, t⟩ <;> first | rfl | exact absurd rfl hl
  rw [if_neg h7] at ha
  by_cases h8 : u = str "PING"
  · rw [if_pos h8] at ha
    subst h8
    obtain rfl : (0 : Nat) = n := Option.some.inj ha
    rcases args with _ | ⟨a, t⟩ <;> first | rfl | exact absurd rfl hl
  rw [if_neg h8] at ha
  by_cases h9 : u = str "HEY"
  · rw [if_pos h9] at ha
    subst h9
    obtain rfl : (0 : Nat) = n := Option.some.inj ha
    rcases args with _ | ⟨a, t⟩ <;> first | rfl | exact absurd rfl hl
  rw [if_neg h9] at ha
  by_cases h10 : u = str "NO"
  · rw [if_pos h10] at ha
    subst h10
    obtain rfl : (0 : Nat) = n := Option.some.inj ha
    rcases args with _ | ⟨a, t⟩ <;> first | rfl | exact absurd rfl hl
  rw [if_neg h10] at ha
  by_cases h11 : u = str "PONG"
  · rw [if_pos h11] at ha
    subst h11
    obtain rfl : (0 : Nat) = n := Option.some.inj ha
    rcases args with _ | ⟨a, t⟩ <;> first | rfl | exact absurd rfl hl
  rw [if_neg h11] at ha
  by_cases h12 : u = str "BYE"
  · rw [if_pos h12] at ha
    subst h12
    obtain rfl : (0 : Nat) = n := Option.some.inj ha
    rcases args with _ | ⟨a, t⟩ <;> first | rfl | exact absurd rfl hl
  rw [if_neg h12] at ha
  exact absurd ha (by simp)

theorem gmt_arity_mismatch {c : Str} {args : List Str} {n : Nat}
    (ha : arity (to_ascii_uppercase c) = some n) (hl : args.length ≠ n) :
    get_message_type_from_text c args = .error .UnknownArguments :=
  gmt_upper_arity_mismatch ha hl

/-- Claim C2, as stated, is false on the code: the line `CONNECT  bar` (a
double space between command and argument) is not rejected with
`UnknownArguments`; splitting yields the empty first argument and the arity
check passes, so `parse_message` returns a `CONNECT` message carrying an empty
string argument. -/
theorem c2_counterexample :
    parse_message (str "CONNECT  bar\n") = .ok (.CONNECT [] (str "bar")) ∧
    parse_message (str "CONNECT  bar\n") ≠ .error .UnknownArguments := by
  decide

/-- Claim C2 (amended): whenever the uppercased first token of the trimmed
line is in the closed command set and the number of argument tokens produced
by splitting on single spaces differs from the command's arity, parse_message
fails with `UnknownArguments` (empty tokens count towards the arity, and
leading and trailing whitespace is trimmed before splitting, so `BOOP  ` has
zero argument tokens); an interior empty token that preserves the arity is
accepted, so `CONNECT  bar` parses to a `CONNECT` message with an empty first
argument. -/
theorem c2_arity_mismatch :
    (∀ (s c : Str) (args : List Str) (n : Nat),
        splitOnSpace (line_trimmed s) = c :: args →
        arity (to_ascii_uppercase c) = some n →
        args.length ≠ n →
        parse_message s = .error .UnknownArguments) ∧
    parse_message (str "CONNECT  bar\n") = .ok (.CONNECT [] (str "bar")) := by
  constructor
  · intro s c args n hsplit ha hl
    have h1 : (splitAux (line_trimmed s)).1 = c := (List.cons.inj hsplit).1
    have h2 : (splitAux (line_trimmed s)).2 = args := (List.cons.inj hsplit).2
    rw [parse_message_eq_gmt s, h1, h2]
    exact gmt_arity_mismatch ha hl
  · decide

/-- Claim C2 witness: `BOOP` with zero arguments is an arity mismatch and is
rejected with `UnknownArguments`. -/
theorem c2_witness : parse_message (str "BOOP\n") = .error .UnknownArguments :=
  c2_arity_mismatch.1 (str "BOOP\n") (str "BOOP") [] 1 (by decide) (by decide)
    (by decide)

/-! Claim C3: the render/parse round trip. -/

theorem mem_of_getLast?_eq {l : Str} {d : Char} (h : l.getLast? = some d) :
    d ∈ l := by
  rw [← List.head?_reverse] at h
  have hm : d ∈ l.reverse := by
    cases hl : l.reverse with
    | nil => rw [hl] at h; exact absurd h (by simp)
    | cons x t =>
        rw [hl] at h
        have hx : x = d := by simpa using h
        rw [← hx]
        exact List.mem_cons_self x t
  simpa using hm

theorem no_ws_no_space {p : Str} (h : ∀ c ∈ p, rust_is_whitespace c = false) :
    ∀ c ∈ p, c ≠ ' ' := by
  intro c hc he
  subst he
  exact absurd (h ' ' hc) (by decide)

theorem args_wf_spec {s : Str} (h : args_wf s = true) :
    s ≠ [] ∧ ∀ c ∈ s, rust_is_whitespace c = false := by
  unfold args_wf at h
  rw [Bool.and_eq_true] at h
  constructor
  · intro hnil
    subst hnil
    simp at h
  · intro c hc
    have h2 := List.all_eq_true.mp h.2 c hc
    simpa using h2

theorem parse_front_one (tok a : Str) (c0 : Char) (t0 : Str)
    (htok : tok = c0 :: t0) (hc0 : rust_is_whitespace c0 = false)
    (hnosp : ∀ c ∈ tok, c ≠ ' ')
    (ha : a ≠ []) (haw : ∀ c ∈ a, rust_is_whitespace c = false) :
    splitAux (line_trimmed ((tok ++ ' ' :: a) ++ ['\n'])) = (tok, [a]) := by
  unfold line_trimmed
  rw [drop_newline_concat]
  have htrim : rust_trim (tok ++ ' ' :: a) = tok ++ ' ' :: a := by
    apply rust_trim_eq_self
    · intro c t hct
      rw [htok, List.cons_append] at hct
      exact (List.cons.inj hct).1 ▸ hc0
    · intro d hd
      rw [getLast?_append_right tok (by simp)] at hd
      have h2 : (' ' :: a).getLast? = a.getLast? := getLast?_append_right [' '] ha
      rw [h2] at hd
      exact haw d (mem_of_getLast?_eq hd)
  rw [htrim, splitAux_append a hnosp, splitAux_no_space (no_ws_no_space haw)]

theorem parse_front_two (tok k p : Str) (c0 : Char) (t0 : Str)
    (htok : tok = c0 :: t0) (hc0 : rust_is_whitespace c0 = false)
    (hnosp : ∀ c ∈ tok, c ≠ ' ')
    (_hk1 : k ≠ []) (hk2 : ∀ c ∈ k, rust_is_whitespace c = false)
    (hp1 : p ≠ []) (hp2 : ∀ c ∈ p, rust_is_whitespace c = false) :
    splitAux (line_trimmed ((tok ++ ' ' :: (k ++ ' ' :: p)) ++ ['\n'])) =
      (tok, [k, p]) := by
  unfold line_trimmed
  rw [drop_newline_concat]
  have htrim : rust_trim (tok ++ ' ' :: (k ++ ' ' :: p)) =
      tok ++ ' ' :: (k ++ ' ' :: p) := by
    apply rust_trim_eq_self
    · intro c t hct
      rw [htok, List.cons_append] at hct
      exact (List.cons.inj hct).1 ▸ hc0
    · intro d hd
      rw [getLast?_append_right tok (by simp)] at hd
      have h2 : (' ' :: (k ++ ' ' :: p)).getLast? = (k ++ ' ' :: p).getLast? :=
        getLast?_append_right [' '] (by simp)
      rw [h2, getLast?_append_right k (by simp)] at hd
      have h3 : (' ' :: p).getLast? = p.getLast? := getLast?_append_right [' '] hp1
      rw [h3] at hd
      exact hp2 d (mem_of_getLast?_eq hd)
  rw [htrim, splitAux_append (k ++ ' ' :: p) hnosp,
    splitAux_append p (no_ws_no_space hk2),
    splitAux_no_space (no_ws_no_space hp2)]

theorem newline_not_mem_one (tok a : Str) (htok : '\n' ∉ tok)
    (haw : ∀ c ∈ a, rust_is_whitespace c = false) :
    '\n' ∉ tok ++ ' ' :: a := by
  intro hm
  rcases List.mem_append.mp hm with hmt | hmc
  · exact htok hmt
  · rcases List.mem_cons.mp hmc with h2 | h2
    · exact absurd h2 (by decide)
    · exact absurd (haw _ h2) (by decide)

theorem newline_not_mem_two (tok k p : Str) (htok : '\n' ∉ tok)
    (hk : ∀ c ∈ k, rust_is_whitespace c = false)
    (hp : ∀ c ∈ p, rust_is_whitespace c = false) :
    '\n' ∉ tok ++ ' ' :: (k ++ ' ' :: p) := by
  intro hm
  rcases List.mem_append.mp hm with hmt | hmc
  · exact htok hmt
  · rcases List.mem_cons.mp hmc with h2 | h2
    · exact absurd h2 (by decide)
    · rcases List.mem_append.mp h2 with h3 | h3
      · exact absurd (hk _ h3) (by decide)
      · rcases List.mem_cons.mp h3 with h4 | h4
        · exact absurd h4 (by decide)
        · exact absurd (hp _ h4) (by decide)

theorem one_line_concat {x : Str} (h : '\n' ∉ x) :
    (x ++ ['\n']).count '\n' = 1 ∧ (x ++ ['\n']).getLast? = some '\n' := by
  constructor
  · rw [List.count_append, List.count_eq_zero.mpr h]
    rfl
  · simp

/-- Claim C3, as stated, is false on the code: the message `BOOP "a\t"` has
arguments that are non-empty and contain no space and no newline, yet the
round trip fails — the rendered line ends in a tab before the newline, and
`parse_message` trims that tab away, returning `BOOP "a"`. -/
theorem c3_counterexample :
    msg_wf_claim (.BOOP (str "a\t")) = true ∧
    parse_message (create_message_text (.BOOP (str "a\t"))) ≠
      .ok (.BOOP (str "a\t")) ∧
    parse_message (create_message_text (.BOOP (str "a\t"))) =
      .ok (.BOOP (str "a")) := by
  decide

/-- Claim C3 (amended): for every message whose string arguments are
non-empty and contain no whitespace character at all (in particular no space
and no newline), the rendered text is exactly one line — it contains a single
newline character, located at its end — and parsing it returns exactly the
original message, for every variant including every `ERROR` code. -/
theorem c3_roundtrip (m : MessageType) (h : msg_wf m = true) :
    (create_message_text m).count '\n' = 1 ∧
    (create_message_text m).getLast? = some '\n' ∧
    parse_message (create_message_text m) = .ok m := by
  cases m with
  | CONNECT k p =>
      have h2 : (args_wf k && args_wf p) = true := h
      rw [Bool.and_eq_true] at h2
      obtain ⟨hk, hp⟩ := h2
      obtain ⟨hk1, hk2⟩ := args_wf_spec hk
      obtain ⟨hp1, hp2⟩ := args_wf_spec hp
      have hfront := parse_front_two (str "CONNECT") k p 'C' (str "ONNECT") rfl
        (by decide) (by decide) hk1 hk2 hp1 hp2
      have hline := one_line_concat (newline_not_mem_two (str "CONNECT") k p
        (by decide) hk2 hp2)
      have hcreate : create_message_text (.CONNECT k p) =
          (str "CONNECT" ++ ' ' :: (k ++ ' ' :: p)) ++ ['\n'] := by
        simp only [create_message_text, List.append_assoc, List.cons_append]
        rfl
      refine ⟨?_, ?_, ?_⟩
      · rw [hcreate]; exact hline.1
      · rw [hcreate]; exact hline.2
      · rw [hcreate, parse_message_eq_gmt, hfront]
        rfl
  | BOOP a =>
      obtain ⟨ha1, ha2⟩ := args_wf_spec h
      have hfront := parse_front_one (str "BOOP") a 'B' (str "OOP") rfl
        (by decide) (by decide) ha1 ha2
      have hline := one_line_concat (newline_not_mem_one (str "BOOP") a
        (by decide) ha2)
      have hcreate : create_message_text (.BOOP a) =
          (str "BOOP" ++ ' ' :: a) ++ ['\n'] := rfl
      refine ⟨?_, ?_, ?_⟩
      · rw [hcreate]; exact hline.1
      · rw [hcreate]; exact hline.2
      · rw [hcreate, parse_message_eq_gmt, hfront]
        rfl
  | AYT a =>
      obtain ⟨ha1, ha2⟩ := args_wf_spec h
      have hfront := parse_front_one (str "AYT") a 'A' (str "YT") rfl
        (by decide) (by decide) ha1 ha2
      have hline := one_line_concat (newline_not_mem_one (str "AYT") a
        (by decide) ha2)
      have hcreate : create_message_text (.AYT a) =
          (str "AYT" ++ ' ' :: a) ++ ['\n'] := rfl
      refine ⟨?_, ?_, ?_⟩
      · rw [hcreate]; exact hline.1
      · rw [hcreate]; exact hline.2
      · rw [hcreate, parse_message_eq_gmt, hfront]
        rfl
  | ONLINE a =>
      obtain ⟨ha1, ha2⟩ := args_wf_spec h
      have hfront := parse_front_one (str "ONLINE") a 'O' (str "NLINE") rfl
        (by decide) (by decide) ha1 ha2
      have hline := one_line_concat (newline_not_mem_one (str "ONLINE") a
        (by decide) ha2)
      have hcreate : create_message_text (.ONLINE a) =
          (str "ONLINE" ++ ' ' :: a) ++ ['\n'] := rfl
      refine ⟨?_, ?_, ?_⟩
      · rw [hcreate]; exact hline.1
      · rw [hcreate]; exact hline.2
      · rw [hcreate, parse_message_eq_gmt, hfront]
        rfl
  | AFK a =>
      obtain ⟨ha1, ha2⟩ := args_wf_spec h
      have hfront := parse_front_one (str "AFK") a 'A' (str "FK") rfl
        (by decide) (by decide) ha1 ha2
      have hline := one_line_concat (newline_not_mem_one (str "AFK") a
        (by decide) ha2)
      have hcreate : create_message_text (.AFK a) =
          (str "AFK" ++ ' ' :: a) ++ ['\n'] := rfl
      refine ⟨?_, ?_, ?_⟩
      · rw [hcreate]; exact hline.1
      · rw [hcreate]; exact hline.2
      · rw [hcreate, parse_message_eq_gmt, hfront]
        rfl
  | DISCONNECT => exact ⟨by decide, by decide, by decide⟩
  | PING => exact ⟨by decide, by decide, by decide⟩
  | HEY => exact ⟨by decide, by decide, by decide⟩
  | NO => exact ⟨by decide, by decide, by decide⟩
  | BYE => exact ⟨by decide, by decide, by decide⟩
  | PONG => exact ⟨by decide, by decide, by decide⟩
  | ERROR kind => cases kind <;> exact ⟨by decide, by decide, by decide⟩

/-- Claim C3 witness: the round trip evaluated at the concrete message
`BOOP "foo"`. -/
theorem c3_witness :
    msg_wf (.BOOP (str "foo")) = true ∧
    parse_message (create_message_text (.BOOP (str "foo"))) =
      .ok (.BOOP (str "foo")) :=
  ⟨by decide, (c3_roundtrip (.BOOP (str "foo")) (by decide)).2.2⟩

/-! Claim C4: the presence table never retains an empty inner map. -/

theorem mem_alInsert {β : Type} {k : Str} {v : β} :
    ∀ {l : List (Str × β)} {q : Str × β},
      q ∈ alInsert k v l → q = (k, v) ∨ q ∈ l := by
  intro l
  induction l with
  | nil =>
      intro q h
      simp [alInsert] at h
      exact Or.inl h
  | cons hd t ih =>
      intro q h
      obtain ⟨k2, v2⟩ := hd
      by_cases hk : k2 = k
      · rw [alInsert, if_pos hk] at h
        rcases List.mem_cons.mp h with h2 | h2
        · exact Or.inl h2
        · exact Or.inr (List.mem_cons_of_mem _ h2)
      · rw [alInsert, if_neg hk] at h
        rcases List.mem_cons.mp h with h2 | h2
        · exact Or.inr (h2 ▸ List.mem_cons_self _ _)
        · rcases ih h2 with h3 | h3
          · exact Or.inl h3
          · exact Or.inr (List.mem_cons_of_mem _ h3)

theorem alInsert_ne_nil {β : Type} (k : Str) (v : β) (l : List (Str × β)) :
    alInsert k v l ≠ [] := by
  cases l with
  | nil => simp [alInsert]
  | cons hd t =>
      obtain ⟨k2, v2⟩ := hd
      by_cases hk : k2 = k <;> simp [alInsert, hk]

theorem no_empty_inner_add {t : Table} (k i : Str) (c : Tx)
    (h : no_empty_inner t) : no_empty_inner (add_connection k i c t) := by
  intro q hq
  unfold add_connection at hq
  rcases mem_alInsert hq with h2 | h2
  · rw [h2]
    exact alInsert_ne_nil i c _
  · exact h q h2

theorem no_empty_inner_remove (k i : Str) (t : Table) :
    no_empty_inner (remove_connection k i t) := by
  intro q hq
  unfold remove_connection at hq
  have h2 : 0 < q.2.length := of_decide_eq_true (List.mem_filter.mp hq).2
  intro hnil
  rw [hnil] at h2
  simp at h2

/-- Claim C4: after any sequence of presence-table operations starting from
the empty table of `SharedState::new()` — in particular after every single
`add_connection` or `remove_connection` returns — no identity key in the
connections map is bound to an empty inner session map. -/
theorem c4_no_empty_inner (ops : List TableOp) :
    no_empty_inner (run_table_ops ops) := by
  have main : ∀ (l : List TableOp) (t : Table), no_empty_inner t →
      no_empty_inner (l.foldl (fun t2 op => apply_table_op op t2) t) := by
    intro l
    induction l with
    | nil => intro t ht; exact ht
    | cons op rest ih =>
        intro t ht
        rw [List.foldl_cons]
        apply ih
        cases op with
        | add k i c => exact no_empty_inner_add k i c ht
        | remove k i => exact no_empty_inner_remove k i t
  exact main ops [] (by intro q hq; exact absurd hq (List.not_mem_nil q))

/-! Claim C1: terminal paths of the authenticated loop and detach. -/

/-- Claim C1 is violated by the code: an attached session of identity
`alice` that receives the post-handshake line `HEY` terminates after writing
`ERROR PROTOCOL_MISMATCH` as its last line, yet `remove_connection` is never
called on this path — the presence table still contains the session after the
line is written (main.rs lines 288-296 return from the loop without the
detach that every other terminal path performs). -/
theorem c1_mismatch_skips_detach :
    auth_step (str "alice") (str "c1") (.line (str "HEY\n")) true
        (add_connection (str "alice") (str "c1") 0 []) =
      { was_pinged := true,
        table := add_connection (str "alice") (str "c1") 0 [],
        written := [.ERROR .ProtocolMismatch], sends := [],
        terminated := true } ∧
    add_connection (str "alice") (str "c1") 0 [] =
      [(str "alice", [(str "c1", 0)])] ∧
    alGet (str "alice") (add_connection (str "alice") (str "c1") 0 []) =
      some [(str "c1", 0)] ∧
    auth_step (str "alice") (str "c1") (.line (str "NOT A COMMAND\n")) true
        (add_connection (str "alice") (str "c1") 0 []) =
      { was_pinged := true,
        table := add_connection (str "alice") (str "c1") 0 [],
        written := [.ERROR .MalformedCommand], sends := [],
        terminated := true } := by
  decide

/-! Claim C5: the handshake on the first line. -/

/-- Claim C5: on the first line of a connection — if parsing fails the server
answers one `ERROR` line whose code translates `UnknownMessageType` to
`MALFORMED_COMMAND` and `UnknownArguments` to `MALFORMED_ARGUMENTS` and does
not enter the loop; if the line parses to anything other than `CONNECT` it
answers `ERROR PROTOCOL_MISMATCH` and does not enter the loop; on
`CONNECT(identity, password)` with a matched credential it answers `HEY`,
attaches the fresh session id and channel via `add_connection` and enters the
authenticated loop, while on any other credential outcome (not matched or bad
hash) it answers `NO` — not `ERROR` — and closes without attaching. -/
theorem c5_handshake {H : Type} (parse_hash : Str → Option H)
    (verify_password : Str → H → Bool) (clients : List Client)
    (first_line connection_id : Str) (channel : Tx) (table : Table) :
    (∀ e, parse_message first_line = .error e →
        connection_start parse_hash verify_password clients first_line
            connection_id channel table = ([.ERROR e.into], table, false) ∧
        ParserError.into .UnknownMessageType = .MalformedCommand ∧
        ParserError.into .UnknownArguments = .MalformedArguments) ∧
    (∀ m, parse_message first_line = .ok m → (∀ k p, m ≠ .CONNECT k p) →
        connection_start parse_hash verify_password clients first_line
            connection_id channel table =
          ([.ERROR .ProtocolMismatch], table, false)) ∧
    (∀ k p, parse_message first_line = .ok (.CONNECT k p) →
        (client_login_is_valid parse_hash verify_password k p clients =
            .ok true →
          connection_start parse_hash verify_password clients first_line
              connection_id channel table =
            ([.HEY], add_connection k connection_id channel table, true)) ∧
        (client_login_is_valid parse_hash verify_password k p clients ≠
            .ok true →
          connection_start parse_hash verify_password clients first_line
              connection_id channel table = ([.NO], table, false))) := by
  refine ⟨?_, ?_, ?_⟩
  · intro e he
    refine ⟨?_, rfl, rfl⟩
    unfold connection_start handshake_step
    rw [he]
  · intro m hm hnc
    unfold connection_start handshake_step
    rw [hm]
    cases m with
    | CONNECT k p => exact absurd rfl (hnc k p)
    | DISCONNECT => rfl
    | PING => rfl
    | BOOP a => rfl
    | AYT a => rfl
    | HEY => rfl
    | NO => rfl
    | BYE => rfl
    | PONG => rfl
    | ERROR e2 => rfl
    | ONLINE a => rfl
    | AFK a => rfl
  · intro k p hkp
    constructor
    · intro hl
      unfold connection_start handshake_step
      rw [hkp]
      simp only [hl]
    · intro hl
      unfold connection_start handshake_step
      rw [hkp]
      cases hr : client_login_is_valid parse_hash verify_password k p clients with
      | error u => simp only [hr]
      | ok b =>
          cases b with
          | false => simp only [hr]
          | true => exact absurd hr hl

/-- Claim C5 witness: a successful handshake at concrete inputs — `HEY` is
written, the session is attached and the loop entered. -/
theorem c5_witness :
    connection_start (fun _ => some 0) (fun _ _ => true)
        [⟨str "alice", str "hash"⟩] (str "CONNECT alice pw\n") (str "c1") 7 [] =
      ([.HEY], add_connection (str "alice") (str "c1") 7 [], true) :=
  ((c5_handshake (fun _ => some (0 : Nat)) (fun _ _ => true)
      [⟨str "alice", str "hash"⟩] (str "CONNECT alice pw\n") (str "c1") 7
      []).2.2 (str "alice") (str "pw") (by decide)).1 (by decide)

/-! Claim C6: BOOP fan-out. -/

theorem alGet_mem {β : Type} {k : Str} {v : β} :
    ∀ {l : List (Str × β)}, alGet k l = some v → (k, v) ∈ l := by
  intro l
  induction l with
  | nil => intro h; exact absurd h (by simp [alGet])
  | cons hd t ih =>
      intro h
      obtain ⟨k2, v2⟩ := hd
      by_cases hk : k2 = k
      · rw [alGet, if_pos hk] at h
        have hv : v2 = v := Option.some.inj h
        rw [← hk, ← hv]
        exact List.mem_cons_self _ _
      · rw [alGet, if_neg hk] at h
        exact List.mem_cons_of_mem _ (ih h)

/-- Claim C6: when an authenticated session of identity `client_key` receives
`BOOP partner_key`, the engine hands `BOOP client_key` — the sender's own
identity — to every delivery handle in the partner's inner session map
(channel sends are fire-and-forget, their results discarded); if the partner
is absent nothing is sent; in both cases no line is written to the sending
client, the table is unchanged, the liveness flag is unchanged and the
session continues. -/
theorem c6_boop_fanout (client_key connection_id partner_key : Str)
    (wp : Bool) (table : Table) (s : Str)
    (hs : parse_message s = .ok (.BOOP partner_key)) :
    (∀ inner_map, alGet partner_key table = some inner_map →
        auth_step client_key connection_id (.line s) wp table =
          { was_pinged := wp, table := table, written := [],
            sends := inner_map.map (fun q => (q.2, MessageType.BOOP client_key)),
            terminated := false }) ∧
    (alGet partner_key table = none →
        auth_step client_key connection_id (.line s) wp table =
          { was_pinged := wp, table := table, written := [], sends := [],
            terminated := false }) := by
  constructor
  · intro inner_map hmem
    simp [auth_step, hs, hmem]
  · intro hmem
    simp [auth_step, hs, hmem]

/-- Claim C6 witness: a concrete fan-out of `BOOP bob` to both sessions of
`alice`, with no reply to the sender. -/
theorem c6_witness :
    auth_step (str "bob") (str "b1") (.line (str "BOOP alice\n")) true
        [(str "alice", [(str "a1", 3), (str "a2", 4)])] =
      { was_pinged := true,
        table := [(str "alice", [(str "a1", 3), (str "a2", 4)])],
        written := [],
        sends := [(3, .BOOP (str "bob")), (4, .BOOP (str "bob"))],
        terminated := false } :=
  (c6_boop_fanout (str "bob") (str "b1") (str "alice") true
      [(str "alice", [(str "a1", 3), (str "a2", 4)])] (str "BOOP alice\n")
      (by decide)).1 [(str "a1", 3), (str "a2", 4)] (by decide)

/-! Claim C7: AYT answers presence exactly. -/

/-- Claim C7: an authenticated session that receives `AYT partner_key` is
answered `ONLINE partner_key` exactly when the presence table currently holds
at least one session for the partner, and `AFK partner_key` otherwise. The
table invariant of C4 (no identity maps to an empty inner map) identifies the
code's `contains_key` test with "has at least one session". -/
theorem c7_ayt_presence (client_key connection_id partner_key : Str)
    (wp : Bool) (table : Table) (s : Str)
    (hs : parse_message s = .ok (.AYT partner_key))
    (hinv : no_empty_inner table) :
    ((∃ inner_map, alGet partner_key table = some inner_map ∧ inner_map ≠ []) →
        auth_step client_key connection_id (.line s) wp table =
          { was_pinged := wp, table := table,
            written := [.ONLINE partner_key], sends := [],
            terminated := false }) ∧
    (¬ (∃ inner_map, alGet partner_key table = some inner_map ∧
          inner_map ≠ []) →
        auth_step client_key connection_id (.line s) wp table =
          { was_pinged := wp, table := table,
            written := [.AFK partner_key], sends := [],
            terminated := false }) := by
  constructor
  · rintro ⟨inner_map, hmem, hne⟩
    simp [auth_step, hs, hmem]
  · intro hno
    cases hgo : alGet partner_key table with
    | none => simp [auth_step, hs, hgo]
    | some inner_map =>
        exact absurd ⟨inner_map, hgo, hinv (partner_key, inner_map)
          (alGet_mem hgo)⟩ hno

/-- Claim C7 witness: `AYT bob` with bob present is answered `ONLINE bob`. -/
theorem c7_witness :
    auth_step (str "alice") (str "a1") (.line (str "AYT bob\n")) true
        [(str "bob", [(str "b1", 9)])] =
      { was_pinged := true, table := [(str "bob", [(str "b1", 9)])],
        written := [.ONLINE (str "bob")], sends := [], terminated := false } :=
  (c7_ayt_presence (str "alice") (str "a1") (str "bob") true
      [(str "bob", [(str "b1", 9)])] (str "AYT bob\n") (by decide)
      (by decide)).1 ⟨[(str "b1", 9)], by decide, by decide⟩

/-! Claim C8: the credential scan. -/

theorem find?_no_match {key : Str} :
    ∀ {clients : List Client}, (∀ c ∈ clients, c.key ≠ key) →
      clients.find? (fun c => c.key == key) = none := by
  intro clients
  induction clients with
  | nil => intro h; rfl
  | cons c t ih =>
      intro h
      have hc : (c.key == key) = false :=
        beq_eq_false_iff_ne.mpr (h c (List.mem_cons_self c t))
      simp only [List.find?_cons, hc]
      exact ih (fun x hx => h x (List.mem_cons_of_mem c hx))

theorem find?_first_match {key : Str} (c : Client) (hc : c.key = key) :
    ∀ (pre : List Client) (post : List Client),
      (∀ c2 ∈ pre, c2.key ≠ key) →
      (pre ++ c :: post).find? (fun x => x.key == key) = some c := by
  intro pre
  induction pre with
  | nil =>
      intro post _
      have hb : (c.key == key) = true := beq_iff_eq.mpr hc
      simp only [List.nil_append, List.find?_cons, hb]
  | cons d t ih =>
      intro post h
      have hd : (d.key == key) = false :=
        beq_eq_false_iff_ne.mpr (h d (List.mem_cons_self d t))
      simp only [List.cons_append, List.find?_cons, hd]
      exact ih post (fun x hx => h x (List.mem_cons_of_mem d hx))

/-- Claim C8: `client_login_is_valid` scans for the first record whose key
equals the identity. With no matching record it returns `Ok(false)`
(not matched); when the first matching record's hash fails to parse it
returns `Err(())` (bad hash) without consulting any later record with the
same key; otherwise it returns `Ok(b)` where `b` is exactly the outcome of
verifying the supplied password against that record's hash. -/
theorem c8_credential_scan {H : Type} (parse_hash : Str → Option H)
    (verify_password : Str → H → Bool) (key password : Str) :
    (∀ clients : List Client, (∀ c ∈ clients, c.key ≠ key) →
        client_login_is_valid parse_hash verify_password key password clients =
          .ok false) ∧
    (∀ (pre post : List Client) (c : Client),
        (∀ c2 ∈ pre, c2.key ≠ key) → c.key = key →
        ((∀ h2, parse_hash c.hash = some h2 →
            client_login_is_valid parse_hash verify_password key password
              (pre ++ c :: post) = .ok (verify_password password h2)) ∧
         (parse_hash c.hash = none →
            client_login_is_valid parse_hash verify_password key password
              (pre ++ c :: post) = .error ()))) := by
  constructor
  · intro clients h
    unfold client_login_is_valid
    rw [find?_no_match h]
  · intro pre post c hpre hc
    constructor
    · intro h2 hh
      unfold client_login_is_valid
      rw [find?_first_match c hc pre post hpre]
      simp only [hh]
    · intro hh
      unfold client_login_is_valid
      rw [find?_first_match c hc pre post hpre]
      simp only [hh]

/-- Claim C8 witness: the first matching record has an unparseable hash, so
the scan returns bad-hash without consulting the later record that carries
the same key. -/
theorem c8_witness :
    client_login_is_valid (fun _ => (none : Option Unit)) (fun _ _ => false)
        (str "alice") (str "pw")
        [⟨str "bob", str "x"⟩, ⟨str "alice", str "y"⟩, ⟨str "alice", str "z"⟩] =
      .error () :=
  ((c8_credential_scan (fun _ => (none : Option Unit)) (fun _ _ => false)
      (str "alice") (str "pw")).2 [⟨str "bob", str "x"⟩]
      [⟨str "alice", str "z"⟩] ⟨str "alice", str "y"⟩ (by decide) rfl).2 rfl

/-! Claim C9: the liveness flag and the watchdog. -/

/-- Claim C9: in the authenticated loop the liveness flag is set only by a
`PING` line (which is also answered `PONG`), never by an inbound delivery; a
watchdog tick with the flag clear terminates the session and detaches it via
`remove_connection`, while a tick with the flag set clears the flag and
continues with nothing written. -/
theorem c9_watchdog (client_key connection_id : Str) (table : Table)
    (wp : Bool) (m : MessageType) :
    (auth_step client_key connection_id .tick true table =
      { was_pinged := false, table := table, written := [], sends := [],
        terminated := false }) ∧
    (auth_step client_key connection_id .tick false table =
      { was_pinged := false,
        table := remove_connection client_key connection_id table,
        written := [], sends := [], terminated := true }) ∧
    ((auth_step client_key connection_id (.deliver m) wp table).was_pinged =
      wp) ∧
    (∀ s, parse_message s = .ok .PING →
        auth_step client_key connection_id (.line s) wp table =
          { was_pinged := true, table := table, written := [.PONG],
            sends := [], terminated := false }) ∧
    (∀ ev, (auth_step client_key connection_id ev wp table).was_pinged =
          true →
        wp = true ∨ ∃ s, ev = .line s ∧ parse_message s = .ok .PING) := by
  refine ⟨rfl, rfl, rfl, ?_, ?_⟩
  · intro s hs
    simp [auth_step, hs]
  · intro ev h
    cases ev with
    | tick => cases wp <;> simp [auth_step] at h
    | eofRead =>
        left
        simpa [auth_step] using h
    | readErr =>
        left
        simpa [auth_step] using h
    | deliver m2 =>
        left
        simpa [auth_step] using h
    | line s =>
        cases hp : parse_message s with
        | error e =>
            left
            simpa [auth_step, hp] using h
        | ok m2 =>
            cases m2 with
            | PING => exact Or.inr ⟨s, rfl, hp⟩
            | CONNECT k p => left; simpa [auth_step, hp] using h
            | DISCONNECT => left; simpa [auth_step, hp] using h
            | BOOP a => left; simpa [auth_step, hp] using h
            | AYT a => left; simpa [auth_step, hp] using h
            | HEY => left; simpa [auth_step, hp] using h
            | NO => left; simpa [auth_step, hp] using h
            | BYE => left; simpa [auth_step, hp] using h
            | PONG => left; simpa [auth_step, hp] using h
            | ERROR e2 => left; simpa [auth_step, hp] using h
            | ONLINE a => left; simpa [auth_step, hp] using h
            | AFK a => left; simpa [auth_step, hp] using h

/-- Claim C9 witness: receiving `PING` with the flag clear answers `PONG` and
sets the flag. -/
theorem c9_witness :
    auth_step (str "alice") (str "c1") (.line (str "PING\n")) false [] =
      { was_pinged := true, table := [], written := [.PONG], sends := [],
        terminated := false } :=
  (c9_watchdog (str "alice") (str "c1") [] false .PONG).2.2.2.1
    (str "PING\n") (by decide)

/-- Claim C10: `parse_message` first removes at most one trailing newline and
then trims all remaining leading and trailing whitespace before splitting, so
every input parses exactly as its fully trimmed line does; in particular
lines with leading spaces or extra trailing spaces such as `"  PING\n"` and
`"BOOP foo   \n"` parse successfully as if the surrounding whitespace were
absent. -/
theorem c10_trim_behaviour :
    (∀ s : Str, parse_message s = parse_message (line_trimmed s)) ∧
    parse_message (str "  PING\n") = .ok .PING ∧
    parse_message (str "BOOP foo   \n") = .ok (.BOOP (str "foo")) :=
  ⟨fun s => (parse_message_line_trimmed s).symm, by decide, by decide⟩

end BoopRelay
